import Mathlib

/-!
Verification development for the timetable-generation backend (`app.py`).

The core under study is `TimetableGenerator.generate` together with its
companion `detect_conflicts` scan.  Python dictionaries keyed by
teacher/classroom/cohort names with boolean day×slot grids are modelled as
lists of busy triples `(name, day, slot)`; dictionary iteration order
(insertion order, first occurrence of a key) is modelled explicitly by
`firstOccKeys`; Python's stable `list.sort` is modelled by a stable
insertion sort `sortByStable`.  Strings are Lean `String`s; the handful of
Python string operations used by the source (`strip`, single-character
`in`, `split(sep, 1)[0]`, whitespace `split()`, `lower`) are implemented
over the underlying character lists.
-/

/-- Python `str.strip()` over a character list: drop Unicode whitespace from
both ends (the source only ever feeds it ASCII data). -/
def stripChars (l : List Char) : List Char :=
  ((l.dropWhile Char.isWhitespace).reverse.dropWhile Char.isWhitespace).reverse

/-- Python `str.strip()`. -/
def pyStrip (s : String) : String :=
  ⟨stripChars s.data⟩

/-- ASCII lowering of one character, as Python `str.lower()` does on the
ASCII names appearing in this code base. -/
def lowerChar (c : Char) : Char :=
  if 65 ≤ c.toNat ∧ c.toNat ≤ 90 then Char.ofNat (c.toNat + 32) else c

/-- Python `str.lower()` (ASCII fragment). -/
def pyLower (s : String) : String :=
  ⟨s.data.map lowerChar⟩

/-- The normalisation `(x or '').strip().lower()` applied to subject names
when building and querying the subject→teachers index. -/
def normKey (s : String) : String :=
  pyLower (pyStrip s)

/-- Python code-point comparison of character lists (used by `list.sort` on
tuples containing strings). -/
def charsLe : List Char → List Char → Bool
  | [], _ => true
  | _ :: _, [] => false
  | a :: as, b :: bs =>
    if a.toNat < b.toNat then true
    else if b.toNat < a.toNat then false
    else charsLe as bs

/-- Python `<=` on strings (code-point lexicographic). -/
def pyStrLe (a b : String) : Bool :=
  charsLe a.data b.data

/-- Python `list.index`: position of the first occurrence (the source only
calls it on members). -/
def pyIndex {α} [DecidableEq α] : List α → α → Nat
  | [], _ => 0
  | a :: l, x => if a = x then 0 else pyIndex l x + 1

/-- Key order of a Python dict built by repeated `setdefault`: the keys in
first-occurrence order.  `seen` is the set of keys already emitted. -/
def firstOccAux {α} [DecidableEq α] (seen : List α) : List α → List α
  | [] => []
  | a :: l => if a ∈ seen then firstOccAux seen l else a :: firstOccAux (a :: seen) l

/-- Deduplicate a list preserving first-seen order (Python `seen`-set idiom,
also dict key iteration order). -/
def firstOccKeys {α} [DecidableEq α] (l : List α) : List α :=
  firstOccAux [] l

/-- Concatenation of the images of `f`, in order (nested Python `for` loops
that accumulate into one list). -/
def listFlat {α β} (f : α → List β) : List α → List β
  | [] => []
  | a :: l => f a ++ listFlat f l

/-- Insert `x` into an already sorted list, after every element `≤`-before
it, so that the overall sort is stable. -/
def insortStable {α} (le : α → α → Bool) (x : α) : List α → List α
  | [] => [x]
  | y :: ys => if le y x then y :: insortStable le x ys else x :: y :: ys

/-- Stable sort by a boolean total preorder: the model of Python's stable
`list.sort(key=...)`. -/
def sortByStable {α} (le : α → α → Bool) (l : List α) : List α :=
  l.foldl (fun acc x => insortStable le x acc) []

/-- A teacher record: `name`, taught `subjects`, optional `availability`
mapping day → slots (empty mapping = fully available). -/
structure Teacher where
  name : String
  subjects : List String
  availability : List (String × List String)
deriving DecidableEq

/-- A subject record.  `semester := none` models an absent key (defaulted to
"General").  `sessions_per_week : Option (Option Int)` distinguishes an
absent key (`none`), an explicit JSON null (`some none`) and an integer
(`some (some n)`), because `int(subject.get('sessions_per_week', 2) or 0)`
treats the three differently. -/
structure Subject where
  name : String
  semester : Option String
  departments : List String
  sessions_per_week : Option (Option Int)
deriving DecidableEq

/-- One committed timetable entry, as built by `place_entry`. -/
structure Entry where
  day : String
  time_slot : String
  subject : String
  teacher : String
  semester : String
  classrooms : List String
  department_codes : List String
deriving DecidableEq

/-- The `type` tag of a conflict record. -/
inductive ConflictType where
  | teacher
  | classroom
  | student
deriving DecidableEq

/-- A conflict record.  Absent dictionary keys and explicit `None` values
are both modelled as `none`; the `validation` flag models the presence of
the `'validation': True` key on reconciliation records. -/
structure Conflict where
  type : ConflictType
  day : Option String
  time_slot : Option String
  teacher : Option String
  classroom : Option String
  semester : Option String
  subjects : List String
  missing_sessions : Option Int
  suggestions : Option (List String)
  reasons : Option (List String)
  validation : Bool
deriving DecidableEq

/-- The five generator inputs that `generate` actually reads (`self.semesters`
is stored by `__init__` but never used by the algorithm). -/
structure GenCtx where
  teachers : List Teacher
  subjects : List Subject
  classrooms : List String
  time_slots : List String
  days : List String
deriving DecidableEq

/-- The full constructor signature of `TimetableGenerator`, including the
unused `semesters` argument. -/
structure TimetableGenerator where
  teachers : List Teacher
  subjects : List Subject
  classrooms : List String
  time_slots : List String
  days : List String
  semesters : List String
deriving DecidableEq

/-- Mutable state threaded through `generate`: the committed timetable, the
three busy grids (as sets of `(name, day, slot)` triples that are `True`),
the per-(cohort, day) load counter (as a multiset of bump events) and the
accumulated conflict list. -/
structure GenState where
  timetable : List Entry
  teacherBusy : List (String × String × String)
  classroomBusy : List (String × String × String)
  cohortBusy : List (String × String × String)
  cohortLoad : List (String × String)
  conflicts : List Conflict
deriving DecidableEq

/-- The all-empty initial state built at the top of `generate`. -/
def initState : GenState :=
  ⟨[], [], [], [], [], []⟩

/-- `subject.get('semester', 'General')`. -/
def getSemester (s : Subject) : String :=
  s.semester.getD "General"

/-- `int(subject.get('sessions_per_week', 2) or 0)`: an absent key defaults
to `2`; a present `None` is falsy, so `None or 0` yields `0`; an integer
passes through (`0 or 0` is `0`). -/
def sessionsRequired (s : Subject) : Int :=
  match s.sessions_per_week.getD (some 2) with
  | none => 0
  | some n => n

/-- `is_teacher_available`: empty availability means fully available,
otherwise the day must be a key and the slot a member of its list. -/
def is_teacher_available (t : Teacher) (day slot : String) : Bool :=
  match t.availability with
  | [] => true
  | av =>
    match av.find? (fun p => p.1 == day) with
    | none => false
    | some p => decide (slot ∈ p.2)

/-- The per-key list of the `subject_to_teachers` index: teachers are
appended once per matching subject occurrence, in teacher order; empty
normalised keys are never inserted. -/
def teachersForSubjectKey (teachers : List Teacher) (key : String) : List Teacher :=
  if key = "" then []
  else listFlat (fun t => (t.subjects.filter (fun s => normKey s == key)).map (fun _ => t)) teachers

/-- `extract_all_dept_codes` applied to one raw department string: strip,
then look for the first separator among en dash, em dash, ASCII hyphen (in
that checking order) that occurs anywhere in the string and take the
stripped text before its first occurrence; with no separator present take
the first whitespace token; empty results are dropped (`none`). -/
def deptCodeOfRaw (d : String) : Option String :=
  let raw := stripChars d.data
  if raw = [] then none
  else
    let code :=
      match ['–', '—', '-'].find? (fun sep => raw.contains sep) with
      | some sep => stripChars (raw.takeWhile (fun c => c != sep))
      | none => (raw.dropWhile Char.isWhitespace).takeWhile (fun c => !c.isWhitespace)
    if code = [] then none else some ⟨code⟩

/-- `extract_all_dept_codes`: process each department string and
deduplicate preserving first-seen order. -/
def extract_all_dept_codes (s : Subject) : List String :=
  if s.departments = [] then []
  else firstOccKeys (s.departments.filterMap deptCodeOfRaw)

/-- `can_place`: the teacher, classroom and cohort cells must all be free
and the teacher must be available. -/
def can_place (st : GenState) (subject : Subject) (t : Teacher) (c day slot : String) : Bool :=
  !(decide ((t.name, day, slot) ∈ st.teacherBusy)) &&
  !(decide ((c, day, slot) ∈ st.classroomBusy)) &&
  !(decide ((getSemester subject, day, slot) ∈ st.cohortBusy)) &&
  is_teacher_available t day slot

/-- The entry dictionary built by `place_entry`. -/
def mkEntry (subject : Subject) (t : Teacher) (c day slot : String) : Entry :=
  { day := day
    time_slot := slot
    subject := subject.name
    teacher := t.name
    semester := getSemester subject
    classrooms := [c]
    department_codes := extract_all_dept_codes subject }

/-- `place_entry`: append the entry, mark the three busy cells, bump the
cohort/day load counter. -/
def place_entry (st : GenState) (subject : Subject) (t : Teacher) (c day slot : String) : GenState :=
  { st with
    timetable := st.timetable ++ [mkEntry subject t c day slot]
    teacherBusy := (t.name, day, slot) :: st.teacherBusy
    classroomBusy := (c, day, slot) :: st.classroomBusy
    cohortBusy := (getSemester subject, day, slot) :: st.cohortBusy
    cohortLoad := (getSemester subject, day) :: st.cohortLoad }

/-- `cohort_load.get(semester, {}).get(day, 0)`. -/
def loadOf (st : GenState) (semester day : String) : Nat :=
  st.cohortLoad.countP (fun p => p == (semester, day))

/-- `_rank_slots`: `day_load * 10` with an always-zero contiguity bonus. -/
def rankSlotScore (st : GenState) (semester day : String) : Nat :=
  loadOf st semester day * 10 - 0

/-- `rank_slots_for_semester`: score every (day, slot), then stable-sort by
(score, day position, slot position). -/
def rank_slots_for_semester (g : GenCtx) (st : GenState) (semester : String) :
    List (String × String) :=
  let ranked := listFlat (fun day =>
    let load := loadOf st semester day
    g.time_slots.map (fun slot => (rankSlotScore st semester day + load * 10, day, slot))) g.days
  let le : Nat × String × String → Nat × String × String → Bool := fun a b =>
    let ka := (a.1, pyIndex g.days a.2.1, pyIndex g.time_slots a.2.2)
    let kb := (b.1, pyIndex g.days b.2.1, pyIndex g.time_slots b.2.2)
    decide (ka.1 < kb.1) ||
      (ka.1 == kb.1 && (decide (ka.2.1 < kb.2.1) ||
        (ka.2.1 == kb.2.1 && decide (ka.2.2 ≤ kb.2.2))))
  (sortByStable le ranked).map (fun x => x.2)

/-- One enumerated candidate tuple
`(t_load, day_index, slot_index, day, slot, teacher, classroom)`. -/
structure Cand where
  tload : Nat
  dayIdx : Nat
  slotIdx : Nat
  day : String
  slot : String
  teacher : Teacher
  classroom : String

/-- `sum(1 for d in days_order for s in slots_order if teacher_schedule[name][d][s])`. -/
def teacherGridLoad (g : GenCtx) (st : GenState) (name : String) : Nat :=
  (listFlat (fun d => g.time_slots.map (fun s => (d, s))) g.days).countP
    (fun p => decide ((name, p.1, p.2) ∈ st.teacherBusy))

/-- The sort key order of `all_candidate_assignments`:
(t_load, day index, slot index, lowered teacher name, classroom name). -/
def candLe (a b : Cand) : Bool :=
  decide (a.tload < b.tload) ||
  (a.tload == b.tload && (decide (a.dayIdx < b.dayIdx) ||
    (a.dayIdx == b.dayIdx && (decide (a.slotIdx < b.slotIdx) ||
      (a.slotIdx == b.slotIdx &&
        (let an := pyLower a.teacher.name
         let bn := pyLower b.teacher.name
         (pyStrLe an bn && !(an == bn)) ||
           (an == bn && pyStrLe a.classroom b.classroom)))))))

/-- `all_candidate_assignments`: every feasible
(day, slot, teacher, classroom) combination, stably sorted by `candLe`. -/
def all_candidate_assignments (g : GenCtx) (st : GenState) (subject : Subject) :
    List (String × String × Teacher × String) :=
  let semester := getSemester subject
  let subject_key := normKey subject.name
  let tfs := teachersForSubjectKey g.teachers subject_key
  if tfs.isEmpty then []
  else
    let candidates := listFlat (fun (p : String × String) =>
      listFlat (fun t =>
        if is_teacher_available t p.1 p.2 then
          g.classrooms.filterMap (fun c =>
            if can_place st subject t c p.1 p.2 then
              some { tload := teacherGridLoad g st t.name
                     dayIdx := pyIndex g.days p.1
                     slotIdx := pyIndex g.time_slots p.2
                     day := p.1, slot := p.2, teacher := t, classroom := c }
            else none)
        else []) tfs) (rank_slots_for_semester g st semester)
    (sortByStable candLe candidates).map (fun x => (x.day, x.slot, x.teacher, x.classroom))

/-- The pass-1 `continue` guard: the candidate's (day, slot) was already
used for this subject, or there are at least `sessions_required` distinct
feasible days and this day was already used.  Note the comparison is
against the subject's total required count, not the remaining count. -/
def pass1Skip (feasibleDaysCount : Nat) (required : Int)
    (usedPos : List (String × String)) (usedDays : List String)
    (day slot : String) : Bool :=
  decide ((day, slot) ∈ usedPos) ||
    (decide ((feasibleDaysCount : Int) ≥ required) && decide (day ∈ usedDays))

/-- Accumulator of pass 1: state, `placed`, `used_positions`, `used_days`. -/
abbrev Pass1Acc := GenState × Int × List (String × String) × List String

/-- One iteration of the pass-1 loop over the sorted candidate list.  The
Python `break` once the quota is reached is modelled by making every later
iteration a no-op. -/
def pass1Step (subject : Subject) (required : Int) (feasibleDaysCount : Nat)
    (acc : Pass1Acc) (cand : String × String × Teacher × String) : Pass1Acc :=
  let (st, placed, usedPos, usedDays) := acc
  let (day, slot, t, c) := cand
  if placed ≥ required then acc
  else if pass1Skip feasibleDaysCount required usedPos usedDays day slot then acc
  else if can_place st subject t c day slot then
    (place_entry st subject t c day slot, placed + 1, (day, slot) :: usedPos, day :: usedDays)
  else acc

/-- One iteration of the pass-2 (relaxed) loop: same candidate list, only
the quota check and `can_place` remain. -/
def pass2Step (subject : Subject) (required : Int)
    (acc : GenState × Int) (cand : String × String × Teacher × String) : GenState × Int :=
  let (st, placed) := acc
  let (day, slot, t, c) := cand
  if placed ≥ required then acc
  else if can_place st subject t c day slot then
    (place_entry st subject t c day slot, placed + 1)
  else acc

/-- Both placement passes for one subject over the pre-computed `feasible`
list; returns the updated state and the number of sessions placed. -/
def runPasses (subject : Subject) (required : Int)
    (feasible : List (String × String × Teacher × String)) (st : GenState) :
    GenState × Int :=
  let feasibleDaysCount := (firstOccKeys (feasible.map (fun x => x.1))).length
  let a1 := feasible.foldl (pass1Step subject required feasibleDaysCount) (st, 0, [], [])
  feasible.foldl (pass2Step subject required) (a1.1, a1.2.1)

/-- A qualifying teacher is free at a cell when available and not busy
there (used by the diagnostics loops). -/
def teacherFreeAt (st : GenState) (t : Teacher) (day slot : String) : Bool :=
  is_teacher_available t day slot && !(decide ((t.name, day, slot) ∈ st.teacherBusy))

/-- The deduplicated `reasons` list of a shortfall conflict. -/
def reasonsFor (g : GenCtx) (st : GenState) (subject : Subject) (tfs : List Teacher) :
    List String :=
  if tfs.isEmpty then ["No teacher associated with subject"]
  else
    let raw := listFlat (fun day => listFlat (fun slot =>
      let anyTeacherFree := tfs.any (fun t => teacherFreeAt st t day slot)
      let anyClassFree := g.classrooms.any (fun c => !(decide ((c, day, slot) ∈ st.classroomBusy)))
      let cohortBusy := decide ((getSemester subject, day, slot) ∈ st.cohortBusy)
      (if anyTeacherFree then [] else ["No available teacher at " ++ day ++ " " ++ slot]) ++
      (if anyClassFree then [] else ["No available classroom at " ++ day ++ " " ++ slot]) ++
      (if cohortBusy then ["Semester busy at " ++ day ++ " " ++ slot] else [])) g.time_slots) g.days
    firstOccKeys raw

/-- The `suggestions` list of a shortfall conflict: scan (day, slot) pairs
in input order, skip cohort-busy cells, emit "Day @ Slot" when a qualifying
teacher and a classroom are both free, stop at 5 entries. -/
def suggestionsFor (g : GenCtx) (st : GenState) (subject : Subject) (tfs : List Teacher) :
    List String :=
  (listFlat (fun day => g.time_slots.map (fun slot => (day, slot))) g.days).foldl
    (fun sugg p =>
      if sugg.length ≥ 5 then sugg
      else if decide ((getSemester subject, p.1, p.2) ∈ st.cohortBusy) then sugg
      else if (tfs.any (fun t => teacherFreeAt st t p.1 p.2)) &&
              (g.classrooms.any (fun c => !(decide ((c, p.1, p.2) ∈ st.classroomBusy)))) then
        sugg ++ [p.1 ++ " @ " ++ p.2]
      else sugg) []

/-- The shortfall conflict appended when placement left a subject short. -/
def shortfallConflict (g : GenCtx) (st : GenState) (subject : Subject) (missing : Int) :
    Conflict :=
  let tfs := teachersForSubjectKey g.teachers (normKey subject.name)
  { type := .student
    semester := some (getSemester subject)
    time_slot := none
    day := none
    teacher := none
    classroom := none
    subjects := [subject.name]
    missing_sessions := some missing
    suggestions := some (suggestionsFor g st subject tfs)
    reasons := some (reasonsFor g st subject tfs)
    validation := false }

/-- One iteration of the per-subject loop of `generate`: enumerate
candidates, run both passes, and append a shortfall conflict when short. -/
def processSubject (g : GenCtx) (st : GenState) (subject : Subject) : GenState :=
  let required := sessionsRequired subject
  let feasible := all_candidate_assignments g st subject
  let r := runPasses subject required feasible st
  let st2 := r.1
  let placed := r.2
  if placed < required then
    { st2 with conflicts := st2.conflicts ++ [shortfallConflict g st2 subject (required - placed)] }
  else st2

/-- `detect_conflicts`: group the entry list by (day, slot) in
first-occurrence order, then within each group report every teacher,
classroom (after flattening classroom lists, with multiplicity) and cohort
key that occurs in more than one appended entry. -/
def detect_conflicts (timetable : List Entry) : List Conflict :=
  listFlat (fun k =>
    let entries := timetable.filter (fun e => decide ((e.day, e.time_slot) = k))
    let tconfs := (firstOccKeys (entries.map (fun e => e.teacher))).filterMap (fun t =>
      let arr := entries.filter (fun e => decide (e.teacher = t))
      if arr.length > 1 then
        some { type := .teacher, teacher := some t, day := some k.1, time_slot := some k.2
               classroom := none, semester := none
               subjects := arr.map (fun e => e.subject)
               missing_sessions := none, suggestions := none, reasons := none
               validation := false }
      else none)
    let cconfs := (firstOccKeys (listFlat (fun e => e.classrooms) entries)).filterMap (fun c =>
      let arr := listFlat (fun e => (e.classrooms.filter (fun x => decide (x = c))).map (fun _ => e)) entries
      if arr.length > 1 then
        some { type := .classroom, classroom := some c, day := some k.1, time_slot := some k.2
               teacher := none, semester := none
               subjects := arr.map (fun e => e.subject)
               missing_sessions := none, suggestions := none, reasons := none
               validation := false }
      else none)
    let sconfs := (firstOccKeys (entries.map (fun e => e.semester))).filterMap (fun m =>
      let arr := entries.filter (fun e => decide (e.semester = m))
      if arr.length > 1 then
        some { type := .student, semester := some m, day := some k.1, time_slot := some k.2
               teacher := none, classroom := none
               subjects := arr.map (fun e => e.subject)
               missing_sessions := none, suggestions := none, reasons := none
               validation := false }
      else none)
    tconfs ++ cconfs ++ sconfs)
    (firstOccKeys (timetable.map (fun e => (e.day, e.time_slot))))

/-- The reconciliation conflict of §4.7, flagged `validation := true`. -/
def validationConflict (subject : Subject) (missing : Int) : Conflict :=
  { type := .student
    semester := some (getSemester subject)
    time_slot := none
    day := none
    teacher := none
    classroom := none
    subjects := [subject.name]
    missing_sessions := some missing
    suggestions := none
    reasons := none
    validation := true }

/-- The post-generation reconciliation pass: recount committed entries per
(subject name, semester) and append a validation conflict when short. -/
def validationConflicts (g : GenCtx) (timetable : List Entry) : List Conflict :=
  g.subjects.filterMap (fun subject =>
    let required := sessionsRequired subject
    let count := timetable.countP (fun e =>
      decide (e.subject = subject.name ∧ e.semester = getSemester subject))
    if (count : Int) < required then some (validationConflict subject (required - count))
    else none)

/-- `TimetableGenerator.generate` over the five inputs it reads: the
per-subject placement loop, the safety re-scan (whose results extend the
already-recorded shortfall conflicts), and the reconciliation pass. -/
def generateCore (g : GenCtx) : List Entry × List Conflict :=
  let st := g.subjects.foldl (processSubject g) initState
  let conflicts1 := st.conflicts ++ detect_conflicts st.timetable
  (st.timetable, conflicts1 ++ validationConflicts g st.timetable)

/-- `TimetableGenerator.generate` on the full constructor state; the stored
`semesters` field is never read by the algorithm. -/
def generate (gen : TimetableGenerator) : List Entry × List Conflict :=
  generateCore ⟨gen.teachers, gen.subjects, gen.classrooms, gen.time_slots, gen.days⟩

/-- The pass-1 skip guard as claim C5 words it: the distinct feasible-day
count is compared against the REMAINING required sessions
(`required - placed`) instead of the total. -/
def pass1SkipClaim (feasibleDaysCount : Nat) (required placed : Int)
    (usedPos : List (String × String)) (usedDays : List String)
    (day slot : String) : Bool :=
  decide ((day, slot) ∈ usedPos) ||
    (decide ((feasibleDaysCount : Int) ≥ required - placed) && decide (day ∈ usedDays))

/-- Pass-1 iteration under the claim-C5 reading of the skip guard. -/
def pass1StepClaim (subject : Subject) (required : Int) (feasibleDaysCount : Nat)
    (acc : Pass1Acc) (cand : String × String × Teacher × String) : Pass1Acc :=
  let (st, placed, usedPos, usedDays) := acc
  let (day, slot, t, c) := cand
  if placed ≥ required then acc
  else if pass1SkipClaim feasibleDaysCount required placed usedPos usedDays day slot then acc
  else if can_place st subject t c day slot then
    (place_entry st subject t c day slot, placed + 1, (day, slot) :: usedPos, day :: usedDays)
  else acc

/-- Both passes under the claim-C5 reading. -/
def runPassesClaim (subject : Subject) (required : Int)
    (feasible : List (String × String × Teacher × String)) (st : GenState) :
    GenState × Int :=
  let feasibleDaysCount := (firstOccKeys (feasible.map (fun x => x.1))).length
  let a1 := feasible.foldl (pass1StepClaim subject required feasibleDaysCount) (st, 0, [], [])
  feasible.foldl (pass2Step subject required) (a1.1, a1.2.1)

/-- Per-subject loop under the claim-C5 reading. -/
def processSubjectClaim (g : GenCtx) (st : GenState) (subject : Subject) : GenState :=
  let required := sessionsRequired subject
  let feasible := all_candidate_assignments g st subject
  let r := runPassesClaim subject required feasible st
  let st2 := r.1
  let placed := r.2
  if placed < required then
    { st2 with conflicts := st2.conflicts ++ [shortfallConflict g st2 subject (required - placed)] }
  else st2

/-- Full generation under the claim-C5 reading of pass 1. -/
def generateCoreClaim (g : GenCtx) : List Entry × List Conflict :=
  let st := g.subjects.foldl (processSubjectClaim g) initState
  let conflicts1 := st.conflicts ++ detect_conflicts st.timetable
  (st.timetable, conflicts1 ++ validationConflicts g st.timetable)

/-- The department-code rule as claim C6 words it: if any hyphen-like
separator occurs, split at the first such separator BY POSITION in the
string, whichever of the three kinds it is. -/
def claimDeptCode (d : String) : Option String :=
  let raw := stripChars d.data
  if raw = [] then none
  else
    let hyphenLike : Char → Bool := fun c => c == '-' || c == '–' || c == '—'
    let code :=
      if raw.any hyphenLike then stripChars (raw.takeWhile (fun c => !hyphenLike c))
      else (raw.dropWhile Char.isWhitespace).takeWhile (fun c => !c.isWhitespace)
    if code = [] then none else some ⟨code⟩

/-- Department-code extraction as claim C6 words it. -/
def claimExtract (s : Subject) : List String :=
  if s.departments = [] then []
  else firstOccKeys (s.departments.filterMap claimDeptCode)

/-- The department-code rule as amended: the separator kinds are probed in
the fixed order en dash, em dash, ASCII hyphen, and the string is split at
the first occurrence of the first kind present anywhere in it. -/
def amendedDeptCode (d : String) : Option String :=
  let raw := stripChars d.data
  if raw = [] then none
  else
    let code :=
      if raw.contains '–' then stripChars (raw.takeWhile (fun c => c != '–'))
      else if raw.contains '—' then stripChars (raw.takeWhile (fun c => c != '—'))
      else if raw.contains '-' then stripChars (raw.takeWhile (fun c => c != '-'))
      else (raw.dropWhile Char.isWhitespace).takeWhile (fun c => !c.isWhitespace)
    if code = [] then none else some ⟨code⟩

/-- Department-code extraction under the amended separator rule. -/
def amendedExtract (s : Subject) : List String :=
  if s.departments = [] then []
  else firstOccKeys (s.departments.filterMap amendedDeptCode)

/-- Elements produced by `firstOccAux` come from the input and were not
already seen. -/
theorem mem_firstOccAux {α} [DecidableEq α] {x : α} :
    ∀ {seen l : List α}, x ∈ firstOccAux seen l → x ∈ l ∧ x ∉ seen := by
  intro seen l
  induction l generalizing seen with
  | nil => intro h; simp [firstOccAux] at h
  | cons a l ih =>
    intro h
    by_cases ha : a ∈ seen
    · simp only [firstOccAux, if_pos ha] at h
      obtain ⟨h1, h2⟩ := ih h
      exact ⟨List.mem_cons_of_mem _ h1, h2⟩
    · simp only [firstOccAux, if_neg ha, List.mem_cons] at h
      rcases h with h | h
      · subst h; exact ⟨List.mem_cons_self _ _, ha⟩
      · obtain ⟨h1, h2⟩ := ih h
        refine ⟨List.mem_cons_of_mem _ h1, fun hx => h2 (List.mem_cons_of_mem _ hx)⟩

/-- `firstOccAux` emits no duplicates. -/
theorem nodup_firstOccAux {α} [DecidableEq α] :
    ∀ (l seen : List α), (firstOccAux seen l).Nodup := by
  intro l
  induction l with
  | nil => intro seen; simp [firstOccAux]
  | cons a l ih =>
    intro seen
    by_cases ha : a ∈ seen
    · simpa [firstOccAux, if_pos ha] using ih seen
    · simp only [firstOccAux, if_neg ha, List.nodup_cons]
      refine ⟨fun hmem => ?_, ih _⟩
      exact (mem_firstOccAux hmem).2 (List.mem_cons_self _ _)

/-- Membership in the deduplicated key list implies membership in the
source list. -/
theorem mem_of_mem_firstOccKeys {α} [DecidableEq α] {x : α} {l : List α}
    (h : x ∈ firstOccKeys l) : x ∈ l :=
  (mem_firstOccAux h).1

/-- The deduplicated key list has no duplicates. -/
theorem nodup_firstOccKeys {α} [DecidableEq α] (l : List α) : (firstOccKeys l).Nodup :=
  nodup_firstOccAux l []

/-- `listFlat` of a pointwise-empty function is empty. -/
theorem listFlat_eq_nil {α β} {f : α → List β} {l : List α}
    (h : ∀ a ∈ l, f a = []) : listFlat f l = [] := by
  induction l with
  | nil => rfl
  | cons a l ih =>
    simp only [listFlat, h a (List.mem_cons_self _ _), List.nil_append]
    exact ih (fun b hb => h b (List.mem_cons_of_mem _ hb))

/-- Two committed entries are separated when, should they share a (day,
slot) cell, they use different teachers, disjoint classroom lists and
different cohorts — the three uniqueness invariants of the spec. -/
def SepEntries (e₁ e₂ : Entry) : Prop :=
  e₁.day = e₂.day → e₁.time_slot = e₂.time_slot →
    e₁.teacher ≠ e₂.teacher ∧
    (∀ c, c ∈ e₁.classrooms → c ∉ e₂.classrooms) ∧
    e₁.semester ≠ e₂.semester

/-- Every entry of the list carries exactly one classroom. -/
def SingleRooms (tt : List Entry) : Prop :=
  ∀ e ∈ tt, ∃ c, e.classrooms = [c]

/-- The busy grids cover the committed timetable: every committed entry's
teacher, classroom and cohort cells are marked busy. -/
def Covered (st : GenState) : Prop :=
  ∀ e ∈ st.timetable,
    (e.teacher, e.day, e.time_slot) ∈ st.teacherBusy ∧
    (∀ c ∈ e.classrooms, (c, e.day, e.time_slot) ∈ st.classroomBusy) ∧
    (e.semester, e.day, e.time_slot) ∈ st.cohortBusy

/-- The generation-state invariant: pairwise separation, singleton
classroom lists, and grid coverage. -/
def StateInv (st : GenState) : Prop :=
  st.timetable.Pairwise SepEntries ∧ SingleRooms st.timetable ∧ Covered st

/-- Reading `can_place = true`: all three cells free, teacher available. -/
theorem can_place_spec {st : GenState} {subject : Subject} {t : Teacher} {c day slot : String}
    (h : can_place st subject t c day slot = true) :
    (t.name, day, slot) ∉ st.teacherBusy ∧
    (c, day, slot) ∉ st.classroomBusy ∧
    (getSemester subject, day, slot) ∉ st.cohortBusy ∧
    is_teacher_available t day slot = true := by
  simp only [can_place, Bool.and_eq_true, Bool.not_eq_true', decide_eq_false_iff_not] at h
  exact ⟨h.1.1.1, h.1.1.2, h.1.2, h.2⟩

/-- `place_entry` preserves the generation-state invariant whenever the
cell passed `can_place`. -/
theorem place_entry_inv {st : GenState} {subject : Subject} {t : Teacher} {c day slot : String}
    (hinv : StateInv st) (hcp : can_place st subject t c day slot = true) :
    StateInv (place_entry st subject t c day slot) := by
  obtain ⟨hpw, hsr, hcov⟩ := hinv
  obtain ⟨hT, hC, hS, _⟩ := can_place_spec hcp
  refine ⟨?_, ?_, ?_⟩
  · -- pairwise separation of the extended timetable
    rw [place_entry, List.pairwise_append]
    refine ⟨hpw, List.pairwise_singleton _ _, ?_⟩
    intro e he e' he'
    rw [List.mem_singleton] at he'
    subst he'
    intro hd hs
    have hcove := hcov e he
    refine ⟨?_, ?_, ?_⟩
    · intro hteq
      apply hT
      have := hcove.1
      rw [hteq, hd, hs] at this
      exact this
    · intro x hx hx'
      simp only [mkEntry, List.mem_singleton] at hx'
      subst hx'
      apply hC
      have := hcove.2.1 x hx
      rw [hd, hs] at this
      exact this
    · intro hseq
      apply hS
      have := hcove.2.2
      rw [hseq, hd, hs] at this
      exact this
  · -- singleton classroom lists
    intro e he
    rw [place_entry] at he
    rcases List.mem_append.mp he with h | h
    · exact hsr e h
    · rw [List.mem_singleton] at h
      subst h
      exact ⟨c, rfl⟩
  · -- coverage of the extended grids
    intro e he
    rw [place_entry] at he
    rcases List.mem_append.mp he with h | h
    · obtain ⟨h1, h2, h3⟩ := hcov e h
      exact ⟨List.mem_cons_of_mem _ h1,
             fun x hx => List.mem_cons_of_mem _ (h2 x hx),
             List.mem_cons_of_mem _ h3⟩
    · rw [List.mem_singleton] at h
      subst h
      refine ⟨List.mem_cons_self _ _, ?_, List.mem_cons_self _ _⟩
      intro x hx
      simp only [mkEntry, List.mem_singleton] at hx
      subst hx
      exact List.mem_cons_self _ _

/-- A pass-1 iteration either leaves the state unchanged or commits one
`can_place`-validated entry. -/
theorem pass1Step_state (subject : Subject) (required : Int) (fdc : Nat)
    (acc : Pass1Acc) (cand : String × String × Teacher × String) :
    (pass1Step subject required fdc acc cand).1 = acc.1 ∨
    ∃ t c day slot, can_place acc.1 subject t c day slot = true ∧
      (pass1Step subject required fdc acc cand).1 =
        place_entry acc.1 subject t c day slot := by
  obtain ⟨st, placed, usedPos, usedDays⟩ := acc
  obtain ⟨day, slot, t, c⟩ := cand
  simp only [pass1Step]
  split
  · exact Or.inl rfl
  · split
    · exact Or.inl rfl
    · split
      · next h => exact Or.inr ⟨t, c, day, slot, h, rfl⟩
      · exact Or.inl rfl

/-- A pass-2 iteration either leaves the state unchanged or commits one
`can_place`-validated entry. -/
theorem pass2Step_state (subject : Subject) (required : Int)
    (acc : GenState × Int) (cand : String × String × Teacher × String) :
    (pass2Step subject required acc cand).1 = acc.1 ∨
    ∃ t c day slot, can_place acc.1 subject t c day slot = true ∧
      (pass2Step subject required acc cand).1 =
        place_entry acc.1 subject t c day slot := by
  obtain ⟨st, placed⟩ := acc
  obtain ⟨day, slot, t, c⟩ := cand
  simp only [pass2Step]
  split
  · exact Or.inl rfl
  · split
    · next h => exact Or.inr ⟨t, c, day, slot, h, rfl⟩
    · exact Or.inl rfl

/-- Generic preservation of a predicate along a left fold. -/
theorem foldl_pres {σ ι : Type} (P : σ → Prop) (f : σ → ι → σ)
    (hf : ∀ s i, P s → P (f s i)) :
    ∀ (l : List ι) (s : σ), P s → P (l.foldl f s) := by
  intro l
  induction l with
  | nil => intro s hs; exact hs
  | cons i l ih => intro s hs; exact ih _ (hf s i hs)

/-- The state-invariant is preserved by one pass-1 iteration. -/
theorem pass1Step_inv (subject : Subject) (required : Int) (fdc : Nat)
    (acc : Pass1Acc) (cand : String × String × Teacher × String)
    (h : StateInv acc.1) : StateInv (pass1Step subject required fdc acc cand).1 := by
  rcases pass1Step_state subject required fdc acc cand with heq | ⟨t, c, day, slot, hcp, heq⟩
  · rwa [heq]
  · rw [heq]; exact place_entry_inv h hcp

/-- The state-invariant is preserved by one pass-2 iteration. -/
theorem pass2Step_inv (subject : Subject) (required : Int)
    (acc : GenState × Int) (cand : String × String × Teacher × String)
    (h : StateInv acc.1) : StateInv (pass2Step subject required acc cand).1 := by
  rcases pass2Step_state subject required acc cand with heq | ⟨t, c, day, slot, hcp, heq⟩
  · rwa [heq]
  · rw [heq]; exact place_entry_inv h hcp

/-- Both placement passes preserve the state-invariant. -/
theorem runPasses_inv (subject : Subject) (required : Int)
    (feasible : List (String × String × Teacher × String)) (st : GenState)
    (h : StateInv st) : StateInv (runPasses subject required feasible st).1 := by
  rw [runPasses]
  refine foldl_pres (fun a : GenState × Int => StateInv a.1) _ ?_ feasible _ ?_
  · intro s i hs; exact pass2Step_inv subject required s i hs
  · exact foldl_pres (fun a : Pass1Acc => StateInv a.1) _
      (fun s i hs => pass1Step_inv subject required _ s i hs) feasible _ h

/-- The per-subject loop body preserves the state-invariant (the shortfall
conflict touches only the conflict list). -/
theorem processSubject_inv (g : GenCtx) (st : GenState) (subject : Subject)
    (h : StateInv st) : StateInv (processSubject g st subject) := by
  rw [processSubject]
  have h2 := runPasses_inv subject (sessionsRequired subject)
    (all_candidate_assignments g st subject) st h
  split
  · exact h2
  · exact h2

/-- The final state of the subject loop satisfies the state-invariant. -/
theorem generate_state_inv (g : GenCtx) :
    StateInv (g.subjects.foldl (processSubject g) initState) := by
  refine foldl_pres StateInv _ (fun s i hs => processSubject_inv g s i hs) _ _ ?_
  refine ⟨List.Pairwise.nil, ?_, ?_⟩
  · intro e he; simp [initState] at he
  · intro e he; simp [initState] at he

/-- A pairwise-related list of length at least two yields a related pair. -/
theorem exists_rel_of_pairwise {α} {R : α → α → Prop} :
    ∀ {l : List α}, l.Pairwise R → 1 < l.length → ∃ a b, a ∈ l ∧ b ∈ l ∧ R a b := by
  intro l hp hl
  match l, hp with
  | [], _ => simp at hl
  | [a], _ => simp at hl
  | a :: b :: t, hp =>
    rw [List.pairwise_cons] at hp
    exact ⟨a, b, by simp, by simp, hp.1 b (by simp)⟩

/-- With singleton classroom lists, the per-room exploded entry list of
`detect_conflicts` is just the entries whose room is `c`. -/
theorem roomsFlat_eq_filter (c : String) :
    ∀ {l : List Entry}, (∀ e ∈ l, ∃ x, e.classrooms = [x]) →
      listFlat (fun e => (e.classrooms.filter (fun x => decide (x = c))).map (fun _ => e)) l
        = l.filter (fun e => decide (c ∈ e.classrooms)) := by
  intro l
  induction l with
  | nil => intro _; rfl
  | cons e l ih =>
    intro h
    obtain ⟨x, hx⟩ := h e (List.mem_cons_self _ _)
    have ht : ∀ e' ∈ l, ∃ y, e'.classrooms = [y] :=
      fun e' he' => h e' (List.mem_cons_of_mem _ he')
    simp only [listFlat, List.filter_cons, hx, ih ht]
    by_cases hxc : x = c
    · subst hxc
      simp [List.filter_cons]
    · simp [List.filter_cons, hxc, Ne.symm hxc]

/-- On a pairwise-separated timetable whose entries carry exactly one
classroom each, the conflict scan finds nothing. -/
theorem detect_conflicts_eq_nil {tt : List Entry}
    (hpw : tt.Pairwise SepEntries) (hsr : SingleRooms tt) :
    detect_conflicts tt = [] := by
  rw [detect_conflicts]
  apply listFlat_eq_nil
  intro k _
  dsimp only
  have hsub : List.Sublist (tt.filter (fun e => decide ((e.day, e.time_slot) = k))) tt :=
    List.filter_sublist tt
  have hpw' : (tt.filter (fun e => decide ((e.day, e.time_slot) = k))).Pairwise SepEntries :=
    hpw.sublist hsub
  have hkey : ∀ e ∈ tt.filter (fun e => decide ((e.day, e.time_slot) = k)),
      e.day = k.1 ∧ e.time_slot = k.2 := by
    intro e he
    have h2 := of_decide_eq_true (List.mem_filter.mp he).2
    exact ⟨by rw [← h2], by rw [← h2]⟩
  have hsr' : ∀ e ∈ tt.filter (fun e => decide ((e.day, e.time_slot) = k)),
      ∃ x, e.classrooms = [x] :=
    fun e he => hsr e (hsub.mem he)
  rw [List.append_eq_nil, List.append_eq_nil]
  refine ⟨⟨?_, ?_⟩, ?_⟩
  · -- teacher collisions
    rw [List.filterMap_eq_nil_iff]
    intro t _
    rw [if_neg]
    intro hlen
    have hpw2 : ((tt.filter (fun e => decide ((e.day, e.time_slot) = k))).filter
        (fun e => decide (e.teacher = t))).Pairwise SepEntries :=
      hpw'.sublist (List.filter_sublist _)
    obtain ⟨a, b, ha, hb, hab⟩ := exists_rel_of_pairwise hpw2 hlen
    have ha2 := List.mem_filter.mp ha
    have hb2 := List.mem_filter.mp hb
    have hat := of_decide_eq_true ha2.2
    have hbt := of_decide_eq_true hb2.2
    have hd : a.day = b.day := by
      rw [(hkey a ha2.1).1, (hkey b hb2.1).1]
    have hs : a.time_slot = b.time_slot := by
      rw [(hkey a ha2.1).2, (hkey b hb2.1).2]
    exact (hab hd hs).1 (by rw [hat, hbt])
  · -- classroom collisions
    rw [List.filterMap_eq_nil_iff]
    intro c _
    rw [roomsFlat_eq_filter c hsr']
    rw [if_neg]
    intro hlen
    have hpw2 : ((tt.filter (fun e => decide ((e.day, e.time_slot) = k))).filter
        (fun e => decide (c ∈ e.classrooms))).Pairwise SepEntries :=
      hpw'.sublist (List.filter_sublist _)
    obtain ⟨a, b, ha, hb, hab⟩ := exists_rel_of_pairwise hpw2 hlen
    have ha2 := List.mem_filter.mp ha
    have hb2 := List.mem_filter.mp hb
    have hac := of_decide_eq_true ha2.2
    have hbc := of_decide_eq_true hb2.2
    have hd : a.day = b.day := by
      rw [(hkey a ha2.1).1, (hkey b hb2.1).1]
    have hs : a.time_slot = b.time_slot := by
      rw [(hkey a ha2.1).2, (hkey b hb2.1).2]
    exact (hab hd hs).2.1 c hac hbc
  · -- cohort collisions
    rw [List.filterMap_eq_nil_iff]
    intro m _
    rw [if_neg]
    intro hlen
    have hpw2 : ((tt.filter (fun e => decide ((e.day, e.time_slot) = k))).filter
        (fun e => decide (e.semester = m))).Pairwise SepEntries :=
      hpw'.sublist (List.filter_sublist _)
    obtain ⟨a, b, ha, hb, hab⟩ := exists_rel_of_pairwise hpw2 hlen
    have ha2 := List.mem_filter.mp ha
    have hb2 := List.mem_filter.mp hb
    have ham := of_decide_eq_true ha2.2
    have hbm := of_decide_eq_true hb2.2
    have hd : a.day = b.day := by
      rw [(hkey a ha2.1).1, (hkey b hb2.1).1]
    have hs : a.time_slot = b.time_slot := by
      rw [(hkey a ha2.1).2, (hkey b hb2.1).2]
    exact (hab hd hs).2.2 (by rw [ham, hbm])

/-- Projections of `generateCore`: the committed timetable. -/
theorem generateCore_fst (g : GenCtx) :
    (generateCore g).1 = (g.subjects.foldl (processSubject g) initState).timetable := rfl

/-- Projections of `generateCore`: the conflict list, in append order
(placement shortfalls, then the safety re-scan, then reconciliation). -/
theorem generateCore_snd (g : GenCtx) :
    (generateCore g).2 =
      (g.subjects.foldl (processSubject g) initState).conflicts
        ++ detect_conflicts (g.subjects.foldl (processSubject g) initState).timetable
        ++ validationConflicts g (g.subjects.foldl (processSubject g) initState).timetable := rfl

/-- The shape of a placement-shortfall conflict record: whole-subject, no
cell, student type, not flagged as reconciliation. -/
def ShortfallShape (c : Conflict) : Prop :=
  c.day = none ∧ c.time_slot = none ∧ c.type = ConflictType.student ∧ c.validation = false

/-- The shape of a collision conflict record: it names a concrete day. -/
def CollisionShape (c : Conflict) : Prop :=
  c.day ≠ none

/-- The shape of a reconciliation conflict record. -/
def ValidationShape (c : Conflict) : Prop :=
  c.day = none ∧ c.validation = true

/-- Placement passes never touch the conflict list. -/
theorem runPasses_conflicts (subject : Subject) (required : Int)
    (feasible : List (String × String × Teacher × String)) (st : GenState) :
    (runPasses subject required feasible st).1.conflicts = st.conflicts := by
  rw [runPasses]
  refine foldl_pres (fun a : GenState × Int => a.1.conflicts = st.conflicts) _ ?_ feasible _ ?_
  · intro s i hs
    rcases pass2Step_state subject required s i with heq | ⟨t, c, day, slot, _, heq⟩
    · rwa [heq]
    · rw [heq]; exact hs
  · refine foldl_pres (fun a : Pass1Acc => a.1.conflicts = st.conflicts) _ ?_ feasible _ rfl
    intro s i hs
    rcases pass1Step_state subject required _ s i with heq | ⟨t, c, day, slot, _, heq⟩
    · rwa [heq]
    · rw [heq]; exact hs

/-- The per-subject loop appends at most one conflict, and that conflict is
a placement-shortfall record. -/
theorem processSubject_conflicts (g : GenCtx) (st : GenState) (subject : Subject) :
    (processSubject g st subject).conflicts = st.conflicts ∨
    ∃ c, (processSubject g st subject).conflicts = st.conflicts ++ [c] ∧ ShortfallShape c := by
  rw [processSubject]
  have hc := runPasses_conflicts subject (sessionsRequired subject)
    (all_candidate_assignments g st subject) st
  split
  · right
    exact ⟨_, by rw [← hc], ⟨rfl, rfl, rfl, rfl⟩⟩
  · left
    exact hc

/-- Every conflict accumulated by the subject loop is a shortfall record. -/
theorem generate_conflict_shapes (g : GenCtx) :
    ∀ c ∈ (g.subjects.foldl (processSubject g) initState).conflicts, ShortfallShape c := by
  refine foldl_pres (fun st : GenState => ∀ c ∈ st.conflicts, ShortfallShape c) _ ?_ _ _ ?_
  · intro st subject hst c hc
    rcases processSubject_conflicts g st subject with heq | ⟨c', heq, hshape⟩
    · rw [heq] at hc; exact hst c hc
    · rw [heq] at hc
      rcases List.mem_append.mp hc with h | h
      · exact hst c h
      · rw [List.mem_singleton] at h; subst h; exact hshape
  · intro c hc
    simp [initState] at hc

/-- Every conflict produced by the reconciliation pass is a validation
record. -/
theorem validationConflicts_shapes (g : GenCtx) (tt : List Entry) :
    ∀ c ∈ validationConflicts g tt, ValidationShape c := by
  intro c hc
  rw [validationConflicts] at hc
  obtain ⟨s, _, hfs⟩ := List.mem_filterMap.mp hc
  dsimp only at hfs
  split at hfs
  · cases hfs
    exact ⟨rfl, rfl⟩
  · cases hfs

/-- Committing an entry grows the timetable by exactly one. -/
theorem place_entry_len (st : GenState) (subject : Subject) (t : Teacher) (c day slot : String) :
    (place_entry st subject t c day slot).timetable.length = st.timetable.length + 1 := by
  simp [place_entry]

/-- Unfolding of `runPasses` as two explicit folds. -/
theorem runPasses_def (subject : Subject) (required : Int)
    (feasible : List (String × String × Teacher × String)) (st : GenState) :
    runPasses subject required feasible st =
      feasible.foldl (pass2Step subject required)
        ((feasible.foldl (pass1Step subject required
            ((firstOccKeys (feasible.map (fun x => x.1))).length)) (st, 0, [], [])).1,
         (feasible.foldl (pass1Step subject required
            ((firstOccKeys (feasible.map (fun x => x.1))).length)) (st, 0, [], [])).2.1) := rfl

/-- Full case analysis of a pass-1 iteration: either some guard fired and
the accumulator is unchanged, or the quota was unmet, the skip guard was
off, `can_place` held, and the candidate was committed. -/
theorem pass1Step_cases (subject : Subject) (required : Int) (fdc : Nat)
    (acc : Pass1Acc) (cand : String × String × Teacher × String) :
    pass1Step subject required fdc acc cand = acc ∨
    (acc.2.1 < required ∧
     pass1Skip fdc required acc.2.2.1 acc.2.2.2 cand.1 cand.2.1 = false ∧
     can_place acc.1 subject cand.2.2.1 cand.2.2.2 cand.1 cand.2.1 = true ∧
     pass1Step subject required fdc acc cand =
       (place_entry acc.1 subject cand.2.2.1 cand.2.2.2 cand.1 cand.2.1,
        acc.2.1 + 1, (cand.1, cand.2.1) :: acc.2.2.1, cand.1 :: acc.2.2.2)) := by
  obtain ⟨st, placed, usedPos, usedDays⟩ := acc
  obtain ⟨day, slot, t, c⟩ := cand
  simp only [pass1Step]
  split
  · exact Or.inl rfl
  · next hge =>
    split
    · exact Or.inl rfl
    · next hskip =>
      split
      · next hcp =>
        exact Or.inr ⟨by omega, by simpa using hskip, hcp, rfl⟩
      · exact Or.inl rfl

/-- Full case analysis of a pass-2 iteration. -/
theorem pass2Step_cases (subject : Subject) (required : Int)
    (acc : GenState × Int) (cand : String × String × Teacher × String) :
    pass2Step subject required acc cand = acc ∨
    (acc.2 < required ∧
     can_place acc.1 subject cand.2.2.1 cand.2.2.2 cand.1 cand.2.1 = true ∧
     pass2Step subject required acc cand =
       (place_entry acc.1 subject cand.2.2.1 cand.2.2.2 cand.1 cand.2.1, acc.2 + 1)) := by
  obtain ⟨st, placed⟩ := acc
  obtain ⟨day, slot, t, c⟩ := cand
  simp only [pass2Step]
  split
  · exact Or.inl rfl
  · next hge =>
    split
    · next hcp => exact Or.inr ⟨by omega, hcp, rfl⟩
    · exact Or.inl rfl

/-- Counting facts of the two placement passes: the timetable grows by
exactly the reported `placed` count, which lies between 0 and the required
count when the latter is non-negative. -/
theorem runPasses_count (subject : Subject) (required : Int)
    (feasible : List (String × String × Teacher × String)) (st : GenState)
    (h0 : 0 ≤ required) :
    ((runPasses subject required feasible st).1.timetable.length : Int)
      = st.timetable.length + (runPasses subject required feasible st).2 ∧
    0 ≤ (runPasses subject required feasible st).2 ∧
    (runPasses subject required feasible st).2 ≤ required := by
  rw [runPasses_def]
  have h1 := foldl_pres
    (fun a : Pass1Acc => ((a.1.timetable.length : Int) = st.timetable.length + a.2.1 ∧
      0 ≤ a.2.1 ∧ a.2.1 ≤ required))
    (pass1Step subject required ((firstOccKeys (feasible.map (fun x => x.1))).length)) ?_
    feasible (st, 0, [], []) ⟨by simp, le_refl 0, h0⟩
  · refine foldl_pres
      (fun a : GenState × Int => ((a.1.timetable.length : Int) = st.timetable.length + a.2 ∧
        0 ≤ a.2 ∧ a.2 ≤ required))
      (pass2Step subject required) ?_ feasible _ ⟨h1.1, h1.2⟩
    intro a i ha
    rcases pass2Step_cases subject required a i with heq | ⟨hlt, _, heq⟩
    · rwa [heq]
    · rw [heq]
      dsimp only
      refine ⟨?_, by omega, by omega⟩
      rw [place_entry_len]
      push_cast
      omega
  · intro a i ha
    rcases pass1Step_cases subject required _ a i with heq | ⟨hlt, _, _, heq⟩
    · rwa [heq]
    · rw [heq]
      dsimp only
      refine ⟨?_, by omega, by omega⟩
      rw [place_entry_len]
      push_cast
      omega

/-- C1: for every input, the freshly generated timetable satisfies the
three per-(day, slot) uniqueness invariants — any two committed entries
sharing a (day, slot) cell differ in teacher, have disjoint classroom lists
and differ in cohort — and, equivalently, running the ConflictDetector on
that fresh, unedited timetable produces no collision conflict records. -/
theorem claim_C1_fresh_generation_collision_free (gen : TimetableGenerator) :
    (generate gen).1.Pairwise SepEntries ∧ detect_conflicts (generate gen).1 = [] := by
  obtain ⟨hpw, hsr, _⟩ := generate_state_inv
    ⟨gen.teachers, gen.subjects, gen.classrooms, gen.time_slots, gen.days⟩
  exact ⟨hpw, detect_conflicts_eq_nil hpw hsr⟩

/-- C2: generation is deterministic — two generator instances agreeing on
the teacher, subject, classroom, slot and day sequences produce identical
timetables and identical conflict lists (the algorithm consults no other
input and no randomness). -/
theorem claim_C2_generation_deterministic (g₁ g₂ : TimetableGenerator)
    (ht : g₁.teachers = g₂.teachers) (hs : g₁.subjects = g₂.subjects)
    (hc : g₁.classrooms = g₂.classrooms) (hts : g₁.time_slots = g₂.time_slots)
    (hd : g₁.days = g₂.days) :
    generate g₁ = generate g₂ := by
  cases g₁
  cases g₂
  dsimp only at ht hs hc hts hd
  subst ht
  subst hs
  subst hc
  subst hts
  subst hd
  rfl

/-- Witness for C2 at a concrete input pair differing only in the unused
`semesters` argument. -/
theorem claim_C2_generation_deterministic_witness :
    (TimetableGenerator.mk [(Teacher.mk "t" ["s"] [])] [(Subject.mk "s" none [] (some (some 1)))]
        ["r"] ["a"] ["M"] []).teachers =
      (TimetableGenerator.mk [(Teacher.mk "t" ["s"] [])] [(Subject.mk "s" none [] (some (some 1)))]
        ["r"] ["a"] ["M"] ["x"]).teachers ∧
    generate (TimetableGenerator.mk [(Teacher.mk "t" ["s"] [])] [(Subject.mk "s" none [] (some (some 1)))]
        ["r"] ["a"] ["M"] []) =
      generate (TimetableGenerator.mk [(Teacher.mk "t" ["s"] [])] [(Subject.mk "s" none [] (some (some 1)))]
        ["r"] ["a"] ["M"] ["x"]) :=
  ⟨rfl, claim_C2_generation_deterministic _ _ rfl rfl rfl rfl rfl⟩

/-- C3: the conflict list returned by generation decomposes as collision
records first, then per-subject shortfall records, then reconciliation
records — on a fresh generation the collision segment is empty, so the
decomposition is realised with an empty first segment. -/
theorem claim_C3_conflict_list_order (gen : TimetableGenerator) :
    ∃ col short val,
      (generate gen).2 = col ++ short ++ val ∧
      (∀ c ∈ col, CollisionShape c) ∧
      (∀ c ∈ short, ShortfallShape c) ∧
      (∀ c ∈ val, ValidationShape c) := by
  obtain ⟨hpw, hsr, _⟩ := generate_state_inv
    ⟨gen.teachers, gen.subjects, gen.classrooms, gen.time_slots, gen.days⟩
  have hdet := detect_conflicts_eq_nil hpw hsr
  refine ⟨[],
    ((⟨gen.teachers, gen.subjects, gen.classrooms, gen.time_slots, gen.days⟩ :
        GenCtx).subjects.foldl
      (processSubject ⟨gen.teachers, gen.subjects, gen.classrooms, gen.time_slots, gen.days⟩)
      initState).conflicts,
    validationConflicts ⟨gen.teachers, gen.subjects, gen.classrooms, gen.time_slots, gen.days⟩
      ((⟨gen.teachers, gen.subjects, gen.classrooms, gen.time_slots, gen.days⟩ :
          GenCtx).subjects.foldl
        (processSubject ⟨gen.teachers, gen.subjects, gen.classrooms, gen.time_slots, gen.days⟩)
        initState).timetable,
    ?_, ?_, ?_, ?_⟩
  · rw [show (generate gen).2 = (generateCore
        ⟨gen.teachers, gen.subjects, gen.classrooms, gen.time_slots, gen.days⟩).2 from rfl,
      generateCore_snd, hdet]
    simp
  · intro c hc
    simp at hc
  · exact generate_conflict_shapes _
  · exact validationConflicts_shapes _ _

/-- C8: the ConflictDetector is a total function of the entry list (no
exceptions on well-formed entries), and on the empty entry list it returns
the empty conflict list. -/
theorem claim_C8_detector_empty_on_empty :
    detect_conflicts ([] : List Entry) = [] := rfl

/-- C9: the output of generation does not depend on the `semesters`
constructor argument — the cohort set is derived from the subjects'
semester fields alone. -/
theorem claim_C9_semesters_argument_ignored (gen : TimetableGenerator) (sems : List String) :
    generate { gen with semesters := sems } = generate gen := rfl

/-- C10: every entry committed by the Placer carries exactly one classroom
in its `classrooms` list. -/
theorem claim_C10_placer_singleton_classrooms (gen : TimetableGenerator) :
    ∀ e ∈ (generate gen).1, e.classrooms.length = 1 := by
  intro e he
  obtain ⟨_, hsr, _⟩ := generate_state_inv
    ⟨gen.teachers, gen.subjects, gen.classrooms, gen.time_slots, gen.days⟩
  obtain ⟨x, hx⟩ := hsr e he
  rw [hx]
  rfl

/-- Witness for C10 at a concrete generated entry. -/
theorem claim_C10_placer_singleton_classrooms_witness :
    (Entry.mk "M" "a" "s" "t" "General" ["r"] []) ∈
      (generate (TimetableGenerator.mk [(Teacher.mk "t" ["s"] [])]
        [(Subject.mk "s" none [] (some (some 1)))] ["r"] ["a"] ["M"] [])).1 ∧
    (Entry.mk "M" "a" "s" "t" "General" ["r"] []).classrooms.length = 1 :=
  ⟨by decide, claim_C10_placer_singleton_classrooms
    (TimetableGenerator.mk [(Teacher.mk "t" ["s"] [])]
      [(Subject.mk "s" none [] (some (some 1)))] ["r"] ["a"] ["M"] [])
    (Entry.mk "M" "a" "s" "t" "General" ["r"] []) (by decide)⟩

/-- C7: for each subject processed by the placement loop, at most one
shortfall conflict is appended, and the number of entries committed for
that subject during its processing plus the `missing_sessions` value of
its shortfall conflict (zero when none was appended) equals the subject's
required `sessions_per_week`. -/
theorem claim_C7_placed_plus_missing_equals_required
    (g : GenCtx) (st : GenState) (s : Subject) (h : 0 ≤ sessionsRequired s) :
    ((processSubject g st s).conflicts.drop st.conflicts.length).length ≤ 1 ∧
    ((processSubject g st s).timetable.length : Int) - st.timetable.length
      + (((processSubject g st s).conflicts.drop st.conflicts.length).map
          (fun c => c.missing_sessions.getD 0)).sum
      = sessionsRequired s := by
  have hcount := runPasses_count s (sessionsRequired s) (all_candidate_assignments g st s) st h
  have hconf := runPasses_conflicts s (sessionsRequired s) (all_candidate_assignments g st s) st
  rw [processSubject]
  split
  · next hlt =>
    rw [hconf, List.drop_left]
    refine ⟨by simp, ?_⟩
    simp only [shortfallConflict, List.map_cons, List.map_nil, List.sum_cons, List.sum_nil,
      Option.getD_some, add_zero]
    omega
  · next hge =>
    rw [hconf, List.drop_length]
    refine ⟨by simp, ?_⟩
    simp only [List.map_nil, List.sum_nil, add_zero]
    omega

/-- Witness for C7 at a concrete shortfall input: one teacher, one
classroom, a single (day, slot) cell, and a demand of 2 sessions. -/
theorem claim_C7_placed_plus_missing_equals_required_witness :
    0 ≤ sessionsRequired (Subject.mk "s" none [] (some (some 2))) ∧
    (((processSubject
        (GenCtx.mk [(Teacher.mk "t" ["s"] [])] [(Subject.mk "s" none [] (some (some 2)))]
          ["r"] ["a"] ["M"])
        initState (Subject.mk "s" none [] (some (some 2)))).conflicts.drop
          initState.conflicts.length).length ≤ 1 ∧
      ((processSubject
          (GenCtx.mk [(Teacher.mk "t" ["s"] [])] [(Subject.mk "s" none [] (some (some 2)))]
            ["r"] ["a"] ["M"])
          initState (Subject.mk "s" none [] (some (some 2)))).timetable.length : Int)
          - initState.timetable.length
        + (((processSubject
            (GenCtx.mk [(Teacher.mk "t" ["s"] [])] [(Subject.mk "s" none [] (some (some 2)))]
              ["r"] ["a"] ["M"])
            initState (Subject.mk "s" none [] (some (some 2)))).conflicts.drop
              initState.conflicts.length).map
            (fun c => c.missing_sessions.getD 0)).sum
        = sessionsRequired (Subject.mk "s" none [] (some (some 2)))) :=
  ⟨by decide, claim_C7_placed_plus_missing_equals_required
    (GenCtx.mk [(Teacher.mk "t" ["s"] [])] [(Subject.mk "s" none [] (some (some 2)))]
      ["r"] ["a"] ["M"])
    initState (Subject.mk "s" none [] (some (some 2))) (by decide)⟩

/-- Counterexample to C4 as stated: a subject whose `sessions_per_week`
key is present with a null value gets a required count of 0, not 2 —
`int(None or 0)` is 0 — and generation consequently places nothing even
though a fully free teacher, classroom and cell exist. -/
theorem claim_C4_counterexample :
    (Subject.mk "s" none [] (some none)).sessions_per_week = some none ∧
    sessionsRequired (Subject.mk "s" none [] (some none)) = 0 ∧
    sessionsRequired (Subject.mk "s" none [] (some none)) ≠ 2 ∧
    generateCore (GenCtx.mk [(Teacher.mk "t" ["s"] [])]
      [(Subject.mk "s" none [] (some none))] ["r"] ["a"] ["M"]) = ([], []) := by
  decide

/-- C4 as amended: an absent `sessions_per_week` key defaults to 2, a
present null value yields 0, and a present integer passes through. -/
theorem claim_C4_amended_sessions_default (s : Subject) :
    (s.sessions_per_week = none → sessionsRequired s = 2) ∧
    (s.sessions_per_week = some none → sessionsRequired s = 0) ∧
    (∀ n : Int, s.sessions_per_week = some (some n) → sessionsRequired s = n) := by
  refine ⟨?_, ?_, ?_⟩
  · intro h
    simp [sessionsRequired, h]
  · intro h
    simp [sessionsRequired, h]
  · intro n h
    simp [sessionsRequired, h]

/-- Witness for the amended C4 at concrete subjects. -/
theorem claim_C4_amended_sessions_default_witness :
    (Subject.mk "a" none [] none).sessions_per_week = none ∧
    sessionsRequired (Subject.mk "a" none [] none) = 2 :=
  ⟨rfl, (claim_C4_amended_sessions_default (Subject.mk "a" none [] none)).1 rfl⟩

/-- The pass-1 skip guard is off exactly when the cell is unused and the
day-spread condition does not fire. -/
theorem pass1Skip_eq_false_iff (fdc : Nat) (required : Int)
    (usedPos : List (String × String)) (usedDays : List String) (day slot : String) :
    pass1Skip fdc required usedPos usedDays day slot = false ↔
      ((day, slot) ∉ usedPos ∧ ¬ ((fdc : Int) ≥ required ∧ day ∈ usedDays)) := by
  by_cases h1 : (day, slot) ∈ usedPos <;>
    by_cases h2 : (fdc : Int) ≥ required <;>
      by_cases h3 : day ∈ usedDays <;>
        simp [pass1Skip, h1, h2, h3]

/-- Counterexample to C5 as stated: replacing the code's day-spread guard
(total required count) by the claim's guard (remaining required count)
changes the generated output on a concrete input with 3 required sessions
and only 2 feasible days. -/
theorem claim_C5_counterexample :
    generateCore (GenCtx.mk [(Teacher.mk "t" ["s"] [])]
        [(Subject.mk "s" none [] (some (some 3)))] ["r"] ["a", "b"] ["M", "T"]) ≠
      generateCoreClaim (GenCtx.mk [(Teacher.mk "t" ["s"] [])]
        [(Subject.mk "s" none [] (some (some 3)))] ["r"] ["a", "b"] ["M", "T"]) := by
  decide

/-- C5 as amended: in pass 1 a candidate is committed exactly when the
quota is still unmet, its (day, slot) was not used for the subject, the
day-spread guard — distinct feasible days at least the subject's TOTAL
required count and day already used — does not fire, and `can_place` holds
at commit time; otherwise the accumulator is unchanged. -/
theorem claim_C5_amended_pass1_commit_iff (subject : Subject) (required : Int) (fdc : Nat)
    (acc : Pass1Acc) (cand : String × String × Teacher × String) :
    pass1Step subject required fdc acc cand ≠ acc ↔
      (acc.2.1 < required ∧
       (cand.1, cand.2.1) ∉ acc.2.2.1 ∧
       ¬ ((fdc : Int) ≥ required ∧ cand.1 ∈ acc.2.2.2) ∧
       can_place acc.1 subject cand.2.2.1 cand.2.2.2 cand.1 cand.2.1 = true) := by
  constructor
  · intro hne
    rcases pass1Step_cases subject required fdc acc cand with heq | ⟨hlt, hskip, hcp, _⟩
    · exact absurd heq hne
    · rw [pass1Skip_eq_false_iff] at hskip
      exact ⟨hlt, hskip.1, hskip.2, hcp⟩
  · rintro ⟨hlt, hpos, hday, hcp⟩
    obtain ⟨st, placed, usedPos, usedDays⟩ := acc
    obtain ⟨day, slot, t, c⟩ := cand
    dsimp only at hlt hpos hday hcp
    have hskip : pass1Skip fdc required usedPos usedDays day slot = false := by
      rw [pass1Skip_eq_false_iff]
      exact ⟨hpos, hday⟩
    simp only [pass1Step, if_neg (by omega : ¬ placed ≥ required), hskip,
      Bool.false_eq_true, if_false, if_pos hcp]
    intro heq
    rw [Prod.mk.injEq] at heq
    have := heq.2
    rw [Prod.mk.injEq] at this
    omega

/-- The source's separator probe (`for sep in ['–','—','-']: if sep in raw`)
agrees with the amended priority-order formulation. -/
theorem deptCodeOfRaw_eq_amended (d : String) : deptCodeOfRaw d = amendedDeptCode d := by
  rw [deptCodeOfRaw, amendedDeptCode]
  by_cases h0 : stripChars d.data = []
  · simp [h0]
  · by_cases h1 : '–' ∈ stripChars d.data <;>
      by_cases h2 : '—' ∈ stripChars d.data <;>
        by_cases h3 : '-' ∈ stripChars d.data <;>
          simp [h0, h1, h2, h3, List.find?]

/-- A code emitted for one department string is never the empty string. -/
theorem deptCodeOfRaw_ne_empty {d str : String} (h : deptCodeOfRaw d = some str) :
    str ≠ "" := by
  rw [deptCodeOfRaw] at h
  split at h
  · cases h
  · dsimp only at h
    split at h
    · cases h
    · next hc =>
      cases h
      intro heq
      apply hc
      have := congrArg String.data heq
      simpa using this

/-- Counterexample to C6 as stated: on the department string "A-B–C" the
code splits at the en dash (probed before the ASCII hyphen) even though a
hyphen occurs earlier in the string, so the claimed positionally-first
split gives a different code. -/
theorem claim_C6_counterexample :
    extract_all_dept_codes (Subject.mk "x" none ["A-B–C"] none) = ["A-B"] ∧
    claimExtract (Subject.mk "x" none ["A-B–C"] none) = ["A"] ∧
    extract_all_dept_codes (Subject.mk "x" none ["A-B–C"] none) ≠
      claimExtract (Subject.mk "x" none ["A-B–C"] none) := by
  decide

/-- C6 as amended: department codes are derived by trimming, probing the
separators in the fixed priority order en dash, em dash, ASCII hyphen and
splitting at the first occurrence of the first kind present anywhere in
the string (else taking the first whitespace token), skipping empty
results and deduplicating preserving first-seen order; consequently the
result list never contains duplicates or empty strings. -/
theorem claim_C6_amended_dept_codes (s : Subject) :
    extract_all_dept_codes s = amendedExtract s ∧
    (extract_all_dept_codes s).Nodup ∧
    "" ∉ extract_all_dept_codes s := by
  refine ⟨?_, ?_, ?_⟩
  · rw [extract_all_dept_codes, amendedExtract,
      show deptCodeOfRaw = amendedDeptCode from funext deptCodeOfRaw_eq_amended]
  · rw [extract_all_dept_codes]
    split
    · exact List.nodup_nil
    · exact nodup_firstOccKeys _
  · rw [extract_all_dept_codes]
    split
    · exact List.not_mem_nil ""
    · intro hmem
      obtain ⟨dd, _, hdd⟩ := List.mem_filterMap.mp (mem_of_mem_firstOccKeys hmem)
      exact deptCodeOfRaw_ne_empty hdd rfl
